import Mathlib

/-!
Shallow embedding of the Molara backend (src/backend/db.py, embeddings.py,
main.py): pool lifecycle, per-checkout session parameter, ingestion,
vector search, prompt building and the SSE event stream.

Modelling conventions:
* machine floats become rationals (`ℚ`); the pgvector `<->` operator is the
  Euclidean distance, whose ordering coincides with the ordering of the
  squared distance `l2sq`, which is what we compute (exact in `ℚ`);
* wall-clock instants (`time.monotonic()`) become rationals;
* an upstream NDJSON line is modelled by what `event_stream` inspects of it:
  emptiness, JSON validity, the `response` field and the truthiness of the
  `done` field;
* each outward SSE chunk is one `OutEvent`: the `: ping` comment, or a
  `data:` JSON object with its `delta`, `final` and `sources` fields.
-/

namespace Molara

/-- One row of the `textbook_chunks` table (the `section` column is nullable). -/
structure Row where
  id : Option Int
  book_title : String
  «section» : Option String
  chunk_idx : Int
  body : String
  embedding : List ℚ
deriving DecidableEq

/-- Response row of `/search` and element of `top_chunks` (`ChunkOut` in main.py). -/
structure ChunkOut where
  id : Option Int
  book_title : String
  «section» : String
  chunk_idx : Int
  body : String
  score : Option ℚ
deriving DecidableEq

/-- Request body of `/chunks/auto` (`ChunkIn` in main.py). -/
structure ChunkIn where
  book_title : String
  «section» : Option String
  chunk_idx : Int
  body : String
deriving DecidableEq

/-- Request body of `/chunks/raw` (`InsertWithEmbeddingIn` in main.py). -/
structure InsertWithEmbeddingIn where
  book_title : String
  «section» : Option String
  chunk_idx : Int
  body : String
  embedding : List ℚ
deriving DecidableEq

/-- A raised `HTTPException status_code detail`. -/
structure HTTPErr where
  status : Nat
  detail : String
deriving DecidableEq

/-! ### db.py: pool lifecycle and per-checkout session parameter -/

/-- The module-level `_pool` global of db.py.  `pool = some i` is a live
`AsyncConnectionPool` whose identity is the creation counter `i`; `created`
counts how many pools have ever been constructed, so that re-creation is
observable. -/
structure DBState where
  pool : Option Nat
  created : Nat
deriving DecidableEq

/-- db.py `init()`: construct the pool only when `_pool is None`. -/
def init (s : DBState) : DBState :=
  if s.pool = none then { pool := some s.created, created := s.created + 1 } else s

/-- db.py `close()`: `if _pool: await _pool.close(); _pool = None`. -/
def close (s : DBState) : DBState :=
  if s.pool = none then s else { pool := none, created := s.created }

/-- A SQL statement executed on a checked-out connection. -/
inductive Stmt where
  | setProbes (n : Int)
  | insertRow (r : Row)
  | selectNN (qvec : List ℚ) (k : Nat)
deriving DecidableEq

/-- A checked-out connection, recorded as the statements executed on it. -/
structure Conn where
  executed : List Stmt
deriving DecidableEq

/-- db.py `conn()`: `if _pool is None: await init()`, then check a connection
out of the pool and run `SET ivfflat.probes = ...` on it before yielding it. -/
def conn (probes : Int) (s : DBState) : DBState × Conn :=
  let s1 := if s.pool = none then init s else s
  (s1, ⟨[Stmt.setProbes probes]⟩)

/-- An INSERT executed through `db.conn()` (body of the two ingestion
endpoints): the statements seen by the checked-out connection. -/
def insertOp (probes : Int) (s : DBState) (r : Row) : DBState × List Stmt :=
  let sc := conn probes s
  (sc.1, sc.2.executed ++ [Stmt.insertRow r])

/-- The SELECT of `semantic_search` executed through `db.conn()`: the
statements seen by the checked-out connection. -/
def searchOp (probes : Int) (s : DBState) (qvec : List ℚ) (k : Nat) :
    DBState × List Stmt :=
  let sc := conn probes s
  (sc.1, sc.2.executed ++ [Stmt.selectNN qvec k])

/-! ### Ingestion (main.py `/chunks/raw`, `/chunks/auto`) -/

/-- Python `c.section or "Full Text"`: `None` and the empty string are falsy. -/
def defaultSection : Option String → String
  | none => "Full Text"
  | some s => if s = "" then "Full Text" else s

/-- main.py `add_chunk_raw` as a function of the table state: the pair of the
raised exception (if any) and the table afterwards. -/
def add_chunk_raw (EMBEDDING_DIM : Nat) (table : List Row)
    (c : InsertWithEmbeddingIn) : Option HTTPErr × List Row :=
  let sec := defaultSection c.«section»
  if c.embedding.length ≠ EMBEDDING_DIM then
    (some ⟨400, "Embedding dim must be " ++ toString EMBEDDING_DIM⟩, table)
  else
    (none, table ++ [⟨none, c.book_title, some sec, c.chunk_idx, c.body, c.embedding⟩])

/-- main.py `add_chunk_auto`, parameterized by the external embedding model
(`embed_texts` on a batch of one). -/
def add_chunk_auto (EMBEDDING_DIM : Nat) (embed : String → List ℚ)
    (table : List Row) (c : ChunkIn) : Option HTTPErr × List Row :=
  let sec := defaultSection c.«section»
  let vec := embed c.body
  if vec.length ≠ EMBEDDING_DIM then
    (some ⟨500, "Embedding dim mismatch: got " ++ toString vec.length ++
      " expected " ++ toString EMBEDDING_DIM⟩, table)
  else
    (none, table ++ [⟨none, c.book_title, some sec, c.chunk_idx, c.body, vec⟩])

/-! ### Retrieval (main.py `semantic_search`) -/

/-- Squared Euclidean distance; pgvector `<->` is its square root, so ordering
by `l2sq` is ordering by `<->`. -/
def l2sq (u v : List ℚ) : ℚ :=
  ((List.zipWith (fun a b => a - b) u v).map (fun x => x * x)).sum

/-- The SELECT of `semantic_search`: score every row, `ORDER BY dist ASC`,
`LIMIT top_k`, with `COALESCE(section, 'Full Text')`, then shape each row
into a `ChunkOut`. -/
def semantic_search (table : List Row) (qvec : List ℚ) (top_k : Nat) :
    List ChunkOut :=
  let scored := table.map (fun r => (r, l2sq r.embedding qvec))
  let sorted := scored.mergeSort (fun a b => decide (a.2 ≤ b.2))
  (sorted.take top_k).map (fun rd =>
    ⟨rd.1.id, rd.1.book_title, rd.1.«section».getD "Full Text",
     rd.1.chunk_idx, rd.1.body, some rd.2⟩)

/-! ### Prompt building (main.py `build_prompt`) -/

/-- The context block of the chunk at 0-based position `i`: bracket label
`[i+1]`, metadata header, newline, body. -/
def chunkBlock (i : Nat) (c : ChunkOut) : String :=
  "[" ++ toString (i + 1) ++ "] (book=" ++ c.book_title ++
  ", section=" ++ c.«section» ++ ", idx=" ++ toString c.chunk_idx ++ ")\n" ++
  c.body

/-- The enumerated context blocks of `build_prompt`, in input order. -/
def contextBlocks (chunks : List ChunkOut) : List String :=
  chunks.enum.map (fun ic => chunkBlock ic.1 ic.2)

/-- main.py `build_prompt`: fixed instruction preamble, the context blocks
joined by blank lines, the question, and the answer cue. -/
def build_prompt (question : String) (chunks : List ChunkOut) : String :=
  "You are a precise scientific assistant. Use ONLY the context to answer.\n" ++
  "Cite sources with [1], [2], etc., matching the bracketed chunks.\n" ++
  "If the answer is not contained in the context, say you don't know.\n\n" ++
  "Context:\n" ++ String.intercalate "\n\n" (contextBlocks chunks) ++ "\n\n" ++
  "Question: " ++ question ++ "\n\n" ++
  "Answer:"

/-! ### Streaming (main.py `query_stream` / `event_stream`) -/

/-- What `event_stream` inspects of one upstream NDJSON line: `empty` is a
falsy line (`if not line: continue`), `invalid` makes `json.loads` raise,
and `obj response done` is a parsed object with its `response` field (absent
or its string value) and the truthiness of its `done` field. -/
inductive UpLine where
  | empty
  | invalid
  | obj (response : Option String) (done : Bool)
deriving DecidableEq

/-- Python truthiness of `obj["response"]` when present (`"response" in obj
and obj["response"]`): present and a non-empty string. -/
def respTruthy : Option String → Bool
  | none => false
  | some s => !(s = "")

/-- One entry of the `sources` array of the final event. -/
structure SourceEntry where
  id : Option Int
  book_title : String
  «section» : String
  chunk_idx : Int
  score : Option ℚ
deriving DecidableEq

/-- One outward SSE chunk: the `: ping` heartbeat comment, or a `data:` JSON
object with its `delta`, `final` and `sources` fields (absent fields are
`none`/`false`). -/
inductive OutEvent where
  | ping
  | data (delta : Option String) (final : Bool) (sources : Option (List SourceEntry))
deriving DecidableEq

/-- An event with a truthy `final` field, terminating the client's read. -/
def OutEvent.isFinal : OutEvent → Bool
  | .data _ true _ => true
  | _ => false

/-- An incremental-answer event: a `data:` object carrying a `delta` field
and no truthy `final` field. -/
def OutEvent.isDelta : OutEvent → Bool
  | .data (some _) false _ => true
  | _ => false

/-- The loop body of `event_stream` for one line received at instant `now`
with `last_heartbeat = lastHb`: the events yielded for this line (heartbeat
first, then the delta if any), the new `last_heartbeat`, and whether the
`done` break fires. -/
def stepLine (lastHb : ℚ) (now : ℚ) (l : UpLine) : List OutEvent × ℚ × Bool :=
  let hb : List OutEvent × ℚ :=
    if 15 ≤ now - lastHb then ([OutEvent.ping], now) else ([], lastHb)
  match l with
  | .empty => (hb.1, hb.2, false)
  | .invalid => (hb.1, hb.2, false)
  | .obj resp done =>
    let ds : List OutEvent :=
      if respTruthy resp then [OutEvent.data resp false none] else []
    (hb.1 ++ ds, hb.2, done)

/-- The `async for line in r.aiter_lines()` loop of `event_stream`, with each
event stamped with the instant of the line during which it was yielded.
`lastHb` is the running `last_heartbeat`. -/
def runLinesT (lastHb : ℚ) : List (ℚ × UpLine) → List (ℚ × OutEvent)
  | [] => []
  | (t, l) :: rest =>
    let st := stepLine lastHb t l
    let evs := st.1.map (fun e => (t, e))
    if st.2.2 then evs else evs ++ runLinesT st.2.1 rest

/-- The outward events of the `event_stream` loop, without timestamps. -/
def runLines (lastHb : ℚ) (lines : List (ℚ × UpLine)) : List OutEvent :=
  (runLinesT lastHb lines).map Prod.snd

/-- The `sources` payload of the final event, one entry per retrieved chunk,
in retrieval order (`score` carries the distance). -/
def sourcesPayload (chunks : List ChunkOut) : List SourceEntry :=
  chunks.map (fun s => ⟨s.id, s.book_title, s.«section», s.chunk_idx, s.score⟩)

/-- The terminal event of `event_stream`: `{"final": true, "sources": ...}`. -/
def finalEvent (chunks : List ChunkOut) : OutEvent :=
  OutEvent.data none true (some (sourcesPayload chunks))

/-- The single event of the zero-passages short circuit:
`{"delta": "", "final": true, "sources": []}`. -/
def emptyFinal : OutEvent :=
  OutEvent.data (some "") true (some [])

/-- main.py `query_stream`: retrieve `top_chunks`; when empty, the
`empty_stream` short circuit; otherwise the `event_stream` loop over the
upstream lines followed by the final event.  `t0` is `time.monotonic()` at
stream start (the initial `last_heartbeat`); `lines` is the upstream
NDJSON sequence with arrival instants. -/
def query_stream (table : List Row) (qvec : List ℚ) (top_k : Nat)
    (t0 : ℚ) (lines : List (ℚ × UpLine)) : List OutEvent :=
  let top_chunks := semantic_search table qvec top_k
  if top_chunks.isEmpty then [emptyFinal]
  else runLines t0 lines ++ [finalEvent top_chunks]

/-! ### Theorems about the pool lifecycle -/

/-- C8: `open()` (db.py `init`) is idempotent: a second call is a no-op that
creates no second pool, and calling it on an already-open pool leaves the
state unchanged. -/
theorem init_idempotent (s : DBState) :
    init (init s) = init s ∧ (s.pool ≠ none → init s = s) := by
  constructor
  · by_cases h : s.pool = none <;> simp [init, h]
  · intro h
    simp [init, h]

/-- Witness for `init_idempotent` at a concrete open pool state. -/
theorem init_idempotent_witness :
    init (init ⟨some 0, 1⟩) = init ⟨some 0, 1⟩ ∧ init ⟨some 0, 1⟩ = ⟨some 0, 1⟩ :=
  ⟨(init_idempotent ⟨some 0, 1⟩).1, (init_idempotent ⟨some 0, 1⟩).2 (by decide)⟩

/-- C1 counterexample: starting from the fresh state, after `init` then
`close`, an ordinary checkout through `conn` does not fail: it implicitly
re-creates the pool (a new pool, identity `1`) and yields a live connection
with the probes parameter set.  No operation ever fails with `StoreClosed`. -/
theorem conn_after_close_reopens :
    (conn 10 (close (init ⟨none, 0⟩))).1.pool = some 1 ∧
    (conn 10 (close (init ⟨none, 0⟩))).2.executed = [Stmt.setProbes 10] := by
  decide

/-- C1 amended: after `close()`, a subsequent store operation does not fail
with `StoreClosed`; instead `conn()` implicitly re-initializes the pool
(creating a fresh pool) and the operation proceeds normally. -/
theorem conn_reopens_closed_pool (probes : Int) (s : DBState)
    (h : s.pool = none) :
    (conn probes s).1 = init s ∧
    (conn probes s).1.pool = some s.created ∧
    (conn probes s).2.executed = [Stmt.setProbes probes] := by
  refine ⟨by simp [conn, h], by simp [conn, init, h], rfl⟩

/-- Witness for `conn_reopens_closed_pool` at a concrete closed state. -/
theorem conn_reopens_closed_pool_witness :
    (conn 10 ⟨none, 3⟩).1 = init ⟨none, 3⟩ ∧
    (conn 10 ⟨none, 3⟩).1.pool = some 3 ∧
    (conn 10 ⟨none, 3⟩).2.executed = [Stmt.setProbes 10] :=
  conn_reopens_closed_pool 10 ⟨none, 3⟩ rfl

/-- C7: on every checkout the `SET ivfflat.probes` statement is the first
statement executed on the connection, and both store operations (INSERT and
the nearest-neighbor SELECT) issue their query strictly after it. -/
theorem probes_set_before_use (probes : Int) (s : DBState) (r : Row)
    (qvec : List ℚ) (k : Nat) :
    (conn probes s).2.executed.head? = some (Stmt.setProbes probes) ∧
    (insertOp probes s r).2 = Stmt.setProbes probes :: [Stmt.insertRow r] ∧
    (searchOp probes s qvec k).2 =
      Stmt.setProbes probes :: [Stmt.selectNN qvec k] :=
  ⟨rfl, rfl, rfl⟩

/-! ### Theorems about ingestion -/

/-- C6: `add_chunk_raw` with an embedding whose length differs from
`EMBEDDING_DIM` raises a client error (status 400) and leaves the table
unchanged: the rejection happens before any store call. -/
theorem raw_insert_dim_mismatch_rejected (dim : Nat) (table : List Row)
    (c : InsertWithEmbeddingIn) (h : c.embedding.length ≠ dim) :
    (add_chunk_raw dim table c).1 =
      some ⟨400, "Embedding dim must be " ++ toString dim⟩ ∧
    (add_chunk_raw dim table c).2 = table := by
  simp [add_chunk_raw, h]

/-- Witness for `raw_insert_dim_mismatch_rejected`: a 2-entry embedding
against dimension 3. -/
theorem raw_insert_dim_mismatch_rejected_witness :
    (add_chunk_raw 3 [] ⟨"B", none, 0, "b", [1, 2]⟩).1 =
      some ⟨400, "Embedding dim must be " ++ toString 3⟩ ∧
    (add_chunk_raw 3 [] ⟨"B", none, 0, "b", [1, 2]⟩).2 = [] :=
  raw_insert_dim_mismatch_rejected 3 [] ⟨"B", none, 0, "b", [1, 2]⟩ (by decide)

/-- C9: an ingestion call whose `section` is present but empty stores the
passage with section `"Full Text"`, exactly as when `section` is absent, and
the defaulting happens at construction time, before the insert. -/
theorem empty_section_defaults_full_text (dim : Nat) (embed : String → List ℚ)
    (table : List Row) (cr : InsertWithEmbeddingIn) (ca : ChunkIn)
    (h1 : cr.«section» = some "") (h2 : ca.«section» = some "") :
    add_chunk_raw dim table cr =
      add_chunk_raw dim table { cr with «section» := none } ∧
    add_chunk_auto dim embed table ca =
      add_chunk_auto dim embed table { ca with «section» := none } ∧
    (cr.embedding.length = dim →
      (add_chunk_raw dim table cr).2 = table ++
        [⟨none, cr.book_title, some "Full Text", cr.chunk_idx, cr.body,
          cr.embedding⟩]) ∧
    ((embed ca.body).length = dim →
      (add_chunk_auto dim embed table ca).2 = table ++
        [⟨none, ca.book_title, some "Full Text", ca.chunk_idx, ca.body,
          embed ca.body⟩]) := by
  refine ⟨?_, ?_, ?_, ?_⟩
  · simp [add_chunk_raw, defaultSection, h1]
  · simp [add_chunk_auto, defaultSection, h2]
  · intro hlen
    simp [add_chunk_raw, defaultSection, h1, hlen]
  · intro hlen
    simp [add_chunk_auto, defaultSection, h2, hlen]

/-- Witness for `empty_section_defaults_full_text` at concrete inputs of
dimension 1. -/
theorem empty_section_defaults_full_text_witness :
    add_chunk_raw 1 [] ⟨"B", some "", 0, "b", [0]⟩ =
      add_chunk_raw 1 [] ⟨"B", none, 0, "b", [0]⟩ ∧
    add_chunk_auto 1 (fun _ => [0]) [] ⟨"B", some "", 0, "b"⟩ =
      add_chunk_auto 1 (fun _ => [0]) [] ⟨"B", none, 0, "b"⟩ :=
  ⟨(empty_section_defaults_full_text 1 (fun _ => [0]) []
      ⟨"B", some "", 0, "b", [0]⟩ ⟨"B", some "", 0, "b"⟩ rfl rfl).1,
   (empty_section_defaults_full_text 1 (fun _ => [0]) []
      ⟨"B", some "", 0, "b", [0]⟩ ⟨"B", some "", 0, "b"⟩ rfl rfl).2.1⟩

/-! ### Theorems about retrieval -/

/-- C5: `semantic_search` returns at most `top_k` results, ordered by
non-decreasing distance (the `score` field, which is always populated). -/
theorem search_at_most_k_sorted (table : List Row) (qvec : List ℚ) (k : Nat) :
    (semantic_search table qvec k).length ≤ k ∧
    List.Pairwise (fun a b => a.score.getD 0 ≤ b.score.getD 0)
      (semantic_search table qvec k) ∧
    ∀ c ∈ semantic_search table qvec k, c.score.isSome = true := by
  refine ⟨?_, ?_, ?_⟩
  · simp [semantic_search, List.length_take]
  · have htrans : ∀ a b c : Row × ℚ,
        decide (a.2 ≤ b.2) = true → decide (b.2 ≤ c.2) = true →
        decide (a.2 ≤ c.2) = true := by
      intro a b c hab hbc
      simp only [decide_eq_true_eq] at *
      exact le_trans hab hbc
    have htotal : ∀ a b : Row × ℚ,
        (decide (a.2 ≤ b.2) || decide (b.2 ≤ a.2)) = true := by
      intro a b
      simp only [Bool.or_eq_true, decide_eq_true_eq]
      exact le_total _ _
    have hs := @List.sorted_mergeSort (Row × ℚ) (fun a b => decide (a.2 ≤ b.2))
      htrans htotal (table.map (fun r => (r, l2sq r.embedding qvec)))
    have ht := List.Pairwise.sublist (List.take_sublist k _) hs
    rw [semantic_search]
    refine List.pairwise_map.mpr (List.Pairwise.imp ?_ ht)
    intro a b hab
    simp only [decide_eq_true_eq] at hab
    simpa using hab
  · intro c hc
    simp only [semantic_search, List.mem_map] at hc
    obtain ⟨rd, hrd, hceq⟩ := hc
    subst hceq
    rfl

/-! ### Theorems about prompt construction and citation order -/

/-- C4: for every position `i` of the passage list, the `i`-th context block
of `build_prompt` is labelled with the 1-based bracket index `[i+1]` and
carries that passage's metadata and body; the `sources` payload of the final
event lists at position `i` the entry describing the same passage (id, title,
section, chunk index, distance); and for a non-empty retrieval the stream
ends with exactly that payload. -/
theorem prompt_brackets_match_sources (q : String) (chunks : List ChunkOut)
    (i : Nat) (c : ChunkOut) (h : chunks[i]? = some c) :
    (contextBlocks chunks)[i]? =
      some ("[" ++ toString (i + 1) ++ "] (book=" ++ c.book_title ++
        ", section=" ++ c.«section» ++ ", idx=" ++ toString c.chunk_idx ++
        ")\n" ++ c.body) ∧
    (sourcesPayload chunks)[i]? =
      some ⟨c.id, c.book_title, c.«section», c.chunk_idx, c.score⟩ ∧
    build_prompt q chunks =
      "You are a precise scientific assistant. Use ONLY the context to answer.\n" ++
      "Cite sources with [1], [2], etc., matching the bracketed chunks.\n" ++
      "If the answer is not contained in the context, say you don't know.\n\n" ++
      "Context:\n" ++ String.intercalate "\n\n" (contextBlocks chunks) ++ "\n\n" ++
      "Question: " ++ q ++ "\n\n" ++
      "Answer:" ∧
    (∀ table qvec k t0 lines,
      semantic_search table qvec k = chunks → chunks ≠ [] →
      query_stream table qvec k t0 lines =
        runLines t0 lines ++
          [OutEvent.data none true (some (sourcesPayload chunks))]) := by
  refine ⟨?_, ?_, rfl, ?_⟩
  · simp [contextBlocks, List.getElem?_map, List.getElem?_enum, h, chunkBlock]
  · simp [sourcesPayload, List.getElem?_map, h]
  · intro table qvec k t0 lines hsearch hne
    simp [query_stream, hsearch, hne, finalEvent, List.isEmpty_iff]

/-- Witness for `prompt_brackets_match_sources` on a one-passage list. -/
theorem prompt_brackets_match_sources_witness :
    (contextBlocks [⟨some 7, "A", "S", 2, "passage", some 1⟩])[0]? =
      some ("[" ++ toString (0 + 1) ++ "] (book=" ++ "A" ++ ", section=" ++
        "S" ++ ", idx=" ++ toString (2 : Int) ++ ")\n" ++ "passage") ∧
    (sourcesPayload [⟨some 7, "A", "S", 2, "passage", some 1⟩])[0]? =
      some ⟨some 7, "A", "S", 2, some 1⟩ :=
  ⟨(prompt_brackets_match_sources "why"
      [⟨some 7, "A", "S", 2, "passage", some 1⟩] 0 _ rfl).1,
   (prompt_brackets_match_sources "why"
      [⟨some 7, "A", "S", 2, "passage", some 1⟩] 0 _ rfl).2.1⟩

/-! ### Theorems about the streaming event sequence -/

/-- C2: when retrieval returns zero passages, the outward sequence is exactly
one `Final` event with empty `sources`, no `Delta` event, and the result does
not depend on the generation upstream at all (the backend is never
contacted). -/
theorem empty_retrieval_single_final (table : List Row) (qvec : List ℚ)
    (k : Nat) (t0 : ℚ) (lines : List (ℚ × UpLine))
    (h : semantic_search table qvec k = []) :
    query_stream table qvec k t0 lines = [emptyFinal] ∧
    emptyFinal = OutEvent.data (some "") true (some []) ∧
    (query_stream table qvec k t0 lines).countP OutEvent.isFinal = 1 ∧
    (query_stream table qvec k t0 lines).countP OutEvent.isDelta = 0 ∧
    query_stream table qvec k t0 lines = query_stream table qvec k t0 [] := by
  have hq : query_stream table qvec k t0 lines = [emptyFinal] := by
    simp [query_stream, h]
  have hq2 : query_stream table qvec k t0 [] = [emptyFinal] := by
    simp [query_stream, h]
  refine ⟨hq, rfl, ?_, ?_, hq.trans hq2.symm⟩
  · rw [hq]
    decide
  · rw [hq]
    decide

/-- Witness for `empty_retrieval_single_final`: an empty table, a live
upstream line notwithstanding. -/
theorem empty_retrieval_single_final_witness :
    query_stream [] [] 5 0 [(0, UpLine.empty)] = [emptyFinal] :=
  (empty_retrieval_single_final [] [] 5 0 [(0, UpLine.empty)]
    (by simp [semantic_search])).1

/-- Checker for the spec's heartbeat clause as written: walking the timed
outward events, every `ping` must come at least 15 seconds after the
previous emitted event of any kind (or after stream start `t0`). -/
def anyGapOK : ℚ → List (ℚ × OutEvent) → Bool
  | _, [] => true
  | tprev, (t, e) :: rest =>
    (if e = OutEvent.ping then decide (15 ≤ t - tprev) else true) &&
      anyGapOK t rest

/-- Checker for the code's actual heartbeat discipline: every `ping` comes at
least 15 seconds after the previous `ping` (or after stream start), other
events being irrelevant to the gap. -/
def pingSepB : ℚ → List (ℚ × OutEvent) → Bool
  | _, [] => true
  | hb, (t, e) :: rest =>
    if e = OutEvent.ping then decide (15 ≤ t - hb) && pingSepB t rest
    else pingSepB hb rest

/-- C3 counterexample: with stream start at 0, deltas arriving at instants 14
and 15 produce a heartbeat at instant 15 — only 1 second after the delta
emitted at 14 — because `last_heartbeat` is reset only when a heartbeat is
emitted, never when a delta is.  The claim's "gap since the last emitted
event of any kind" discipline is violated. -/
theorem heartbeat_within_delta_gap :
    runLinesT 0 [(14, UpLine.obj (some "a") false),
      (15, UpLine.obj (some "b") false)] =
      [(14, OutEvent.data (some "a") false none), (15, OutEvent.ping),
       (15, OutEvent.data (some "b") false none)] ∧
    anyGapOK 0 (runLinesT 0 [(14, UpLine.obj (some "a") false),
      (15, UpLine.obj (some "b") false)]) = false := by
  constructor <;>
    simp +decide [runLinesT, stepLine, respTruthy, anyGapOK]

/-- C3 amended: on receipt of an upstream line, a heartbeat is emitted
exactly when at least 15 seconds have passed since the last emitted
heartbeat (or since stream start if none was emitted yet), and it is emitted
before that line's delta; consequently successive heartbeats are at least 15
seconds apart, the gap being measured heartbeat-to-heartbeat, not from the
last emitted event of any kind. -/
theorem heartbeat_gap_since_last_heartbeat :
    (∀ (hb t : ℚ) (l : UpLine),
      (15 ≤ t - hb →
        ∃ tl, (stepLine hb t l).1 = OutEvent.ping :: tl ∧
          OutEvent.ping ∉ tl) ∧
      (t - hb < 15 → OutEvent.ping ∉ (stepLine hb t l).1)) ∧
    (∀ (hb : ℚ) (lines : List (ℚ × UpLine)),
      pingSepB hb (runLinesT hb lines) = true) := by
  constructor
  · intro hb t l
    constructor
    · intro hle
      cases l with
      | empty => exact ⟨[], by simp [stepLine, hle], by simp⟩
      | invalid => exact ⟨[], by simp [stepLine, hle], by simp⟩
      | obj resp done =>
        refine ⟨if respTruthy resp then [OutEvent.data resp false none]
          else [], ?_, ?_⟩
        · by_cases hr : respTruthy resp <;> simp [stepLine, hle, hr]
        · by_cases hr : respTruthy resp <;> simp [hr]
    · intro hlt
      have hn : ¬ 15 ≤ t - hb := not_le.mpr hlt
      cases l with
      | empty => simp [stepLine, hn]
      | invalid => simp [stepLine, hn]
      | obj resp done =>
        by_cases hr : respTruthy resp <;> simp [stepLine, hn, hr]
  · intro hb lines
    induction lines generalizing hb with
    | nil => simp [runLinesT, pingSepB]
    | cons tl rest ih =>
      obtain ⟨t, l⟩ := tl
      by_cases hle : 15 ≤ t - hb
      · cases l with
        | empty => simp [runLinesT, stepLine, hle, pingSepB, ih]
        | invalid => simp [runLinesT, stepLine, hle, pingSepB, ih]
        | obj resp done =>
          by_cases hr : respTruthy resp <;>
            cases done <;>
              simp [runLinesT, stepLine, hle, hr, pingSepB, ih]
      · cases l with
        | empty => simp [runLinesT, stepLine, hle, pingSepB, ih]
        | invalid => simp [runLinesT, stepLine, hle, pingSepB, ih]
        | obj resp done =>
          by_cases hr : respTruthy resp <;>
            cases done <;>
              simp [runLinesT, stepLine, hle, hr, pingSepB, ih]

/-- Witness for `heartbeat_gap_since_last_heartbeat`: a line arriving 20
seconds into a silent stream yields the heartbeat first, and a one-line
stream satisfies the heartbeat-to-heartbeat separation checker. -/
theorem heartbeat_gap_since_last_heartbeat_witness :
    (∃ tl, (stepLine 0 20 (UpLine.obj (some "a") false)).1 =
      OutEvent.ping :: tl ∧ OutEvent.ping ∉ tl) ∧
    pingSepB 5 (runLinesT 5 [(10, UpLine.empty)]) = true :=
  ⟨(heartbeat_gap_since_last_heartbeat.1 0 20
      (UpLine.obj (some "a") false)).1 (by norm_num),
   heartbeat_gap_since_last_heartbeat.2 5 [(10, UpLine.empty)]⟩

/-- A line on which `event_stream` emits no delta: a falsy line, an invalid
JSON line, or an object whose `response` field is absent or empty. -/
def badLine : UpLine → Bool
  | .empty => true
  | .invalid => true
  | .obj resp _ => !(respTruthy resp)

/-- A parsed line whose `done` field is truthy: it breaks the consumption
loop. -/
def doneLine : UpLine → Bool
  | .obj _ d => d
  | _ => false

/-- The loop body never yields an event with a truthy `final` field. -/
theorem stepLine_no_final (hb t : ℚ) (l : UpLine) (e : OutEvent)
    (he : e ∈ (stepLine hb t l).1) : e.isFinal = false := by
  cases l with
  | empty =>
    by_cases hle : 15 ≤ t - hb <;>
      (simp [stepLine, hle] at he; try simp [he, OutEvent.isFinal])
  | invalid =>
    by_cases hle : 15 ≤ t - hb <;>
      (simp [stepLine, hle] at he; try simp [he, OutEvent.isFinal])
  | obj resp done =>
    by_cases hle : 15 ≤ t - hb <;> by_cases hr : respTruthy resp <;>
      simp [stepLine, hle, hr] at he <;>
        first
          | (cases he with
              | inl h => simp [h, OutEvent.isFinal]
              | inr h => simp [h, OutEvent.isFinal])
          | simp [he, OutEvent.isFinal]

/-- The consumption loop of `event_stream` never yields a final event: the
final event comes only from the epilogue after the loop. -/
theorem runLines_no_final (hb : ℚ) (lines : List (ℚ × UpLine)) :
    ∀ e ∈ runLines hb lines, e.isFinal = false := by
  induction lines generalizing hb with
  | nil => simp [runLines, runLinesT]
  | cons tl rest ih =>
    obtain ⟨t, l⟩ := tl
    intro e he
    rw [runLines, runLinesT] at he
    by_cases hd : (stepLine hb t l).2.2 <;> simp [hd, List.mem_map] at he
    · exact stepLine_no_final hb t l e he
    · rcases he with hm | ⟨a, hm⟩
      · exact stepLine_no_final hb t l e hm
      · exact ih _ e (List.mem_map_of_mem Prod.snd hm)

/-- C10 counterexample: the upstream line `\x7b"done": true\x7d` has no
`response` field (so it is in the claim's scope), yet it terminates
consumption: a delta line that follows it is never read, so its event is
lost, contradicting "does not terminate the stream: consumption continues
with the next line". -/
theorem done_line_terminates_stream :
    badLine (UpLine.obj none true) = true ∧
    runLines 0 [(0, UpLine.obj none true),
      (0, UpLine.obj (some "x") false)] = [] ∧
    runLines 0 [(0, UpLine.obj (some "x") false)] =
      [OutEvent.data (some "x") false none] := by
  refine ⟨rfl, ?_, ?_⟩ <;>
    simp +decide [runLines, runLinesT, stepLine, respTruthy]

/-- C10 amended: an upstream line that is empty, invalid JSON, or whose
generated-text field is absent or empty, and whose `done` field is not
truthy, produces no outward event (when no heartbeat is due) and consumption
continues with the next line; a truthy `done` field stops consumption even
on such a line.  In every case the stream still ends with exactly one
terminal `Final` event. -/
theorem bad_line_skipped_final_still_emitted :
    (∀ (hb t : ℚ) (l : UpLine) (rest : List (ℚ × UpLine)),
      badLine l = true → doneLine l = false → t - hb < 15 →
      runLinesT hb ((t, l) :: rest) = runLinesT hb rest) ∧
    (∀ (table : List Row) (qvec : List ℚ) (k : Nat) (t0 : ℚ)
      (lines : List (ℚ × UpLine)),
      (query_stream table qvec k t0 lines).countP OutEvent.isFinal = 1 ∧
      (query_stream table qvec k t0 lines).getLast?.map OutEvent.isFinal =
        some true) := by
  constructor
  · intro hb t l rest hbad hdone hlt
    have hn : ¬ 15 ≤ t - hb := not_le.mpr hlt
    cases l with
    | empty => simp [runLinesT, stepLine, hn]
    | invalid => simp [runLinesT, stepLine, hn]
    | obj resp done =>
      simp [doneLine] at hdone
      simp [badLine] at hbad
      simp [runLinesT, stepLine, hn, hbad, hdone]
  · intro table qvec k t0 lines
    by_cases hempty : (semantic_search table qvec k).isEmpty
    · constructor <;> simp [query_stream, hempty] <;> decide
    · have hcount : (runLines t0 lines).countP OutEvent.isFinal = 0 :=
        List.countP_eq_zero.mpr (by
          intro e he
          simpa using runLines_no_final t0 lines e he)
      constructor
      · simp [query_stream, hempty, List.countP_append, hcount, finalEvent,
          OutEvent.isFinal]
      · simp [query_stream, hempty, List.getLast?_append, finalEvent,
          OutEvent.isFinal]

/-- Witness for `bad_line_skipped_final_still_emitted`: an invalid line one
second into the stream is skipped without producing any event. -/
theorem bad_line_skipped_witness :
    runLinesT 0 [(1, UpLine.invalid), (2, UpLine.obj (some "y") false)] =
      runLinesT 0 [(2, UpLine.obj (some "y") false)] :=
  bad_line_skipped_final_still_emitted.1 0 1 UpLine.invalid
    [(2, UpLine.obj (some "y") false)] rfl rfl (by norm_num)

end Molara
